import Mathlib

/-!
Verification development for the guarded-view facade of a concurrent hash
map (`src/map_ref.rs`).  The facade (`HashMapRef`, `HashMap::pin`,
`HashMap::with_guard`, the `Clone`, `PartialEq`, `Index` and `IntoIterator`
impls) is embedded directly from the source.  The underlying `HashMap`
operations, the `Guard`/epoch reclamation tokens and the iterator type live
outside the provided source tree, so they are modelled from the
specification, with explicit state passing for mutation and for epoch
pinning; references returned by operations are modelled by the values they
point to.
-/

namespace Flurry

/-- Modelled from the spec: a reclamation-scope token marking the holder as
an active reader (the `Guard` type of the reclaim module, which is not in
the provided sources).  Only its identity matters to the facade, so it is a
tagged token. -/
structure Guard where
  id : Nat
deriving DecidableEq, Repr

/-- Modelled from the spec: the epoch subsystem state (not in the provided
sources) — a supply of fresh guard identities plus the multiset of currently
pinned (active) guard identities. -/
structure Epoch where
  nextId : Nat
  active : List Nat
deriving DecidableEq, Repr

/-- Modelled from the spec: *pin* enters the current epoch and returns an
owned `Guard`, registering it as active. -/
def Epoch.pinGuard (e : Epoch) : Guard × Epoch :=
  (⟨e.nextId⟩, ⟨e.nextId + 1, e.nextId :: e.active⟩)

/-- Modelled from the spec: releasing a guard (on scope exit) unpins it,
removing it from the active set. -/
def Epoch.release (e : Epoch) (g : Guard) : Epoch :=
  { e with active := e.active.erase g.id }

/-- The `GuardRef` of the reclaim module (not in the provided sources):
either an owned guard or a borrowed reference to a caller-supplied guard. -/
inductive GuardRef where
  | owned (g : Guard)
  | ref (g : Guard)
deriving DecidableEq, Repr

/-- Dereferencing a `GuardRef` yields the underlying `Guard` in both
variants (the `Deref` impl). -/
def GuardRef.deref : GuardRef → Guard
  | .owned g => g
  | .ref g => g

/-- Modelled from the spec: dropping a `GuardRef` releases an owned guard
(scope exit unpins) and does nothing for a borrowed one. -/
def GuardRef.dropRef : GuardRef → Epoch → Epoch
  | .owned g, e => e.release g
  | .ref _, e => e

/-- Modelled from the spec: the map state (the `HashMap` internals are not
in the provided sources).  The bucket table with its probe chains realises a
finite key-value association, modelled as the list of live entries; table
capacity and tombstones are not logically observable through the interface. -/
structure HashMap (K V : Type) where
  entries : List (K × V)
deriving DecidableEq, Repr

/-- Modelled from the spec: result of try-insert — success carries the newly
stored value, failure carries the existing value (the `TryInsertError`
payload); the key-occupied outcome is non-fatal. -/
inductive TryInsertResult (V : Type) where
  | inserted (new : V)
  | occupied (current : V)
deriving DecidableEq, Repr

variable {K V : Type} [DecidableEq K] [DecidableEq V]

/-- Modelled from the spec: the number of entries in the map
(`HashMap::len`, no guard needed). -/
def HashMap.len (m : HashMap K V) : Nat :=
  m.entries.length

/-- Modelled from the spec: emptiness check (`HashMap::is_empty`). -/
def HashMap.is_empty (m : HashMap K V) : Bool :=
  decide (m.len = 0)

/-- Modelled from the spec: the iteration engine produces the sequence of
key/value pairs of the table snapshot, guard-protected; order is
unspecified, here the entry-list order (`HashMap::iter`). -/
def HashMap.iter (m : HashMap K V) (g : Guard) : List (K × V) :=
  m.entries

/-- Modelled from the spec: iteration over keys (`HashMap::keys`). -/
def HashMap.keys (m : HashMap K V) (g : Guard) : List K :=
  m.entries.map Prod.fst

/-- Modelled from the spec: iteration over values (`HashMap::values`). -/
def HashMap.values (m : HashMap K V) (g : Guard) : List V :=
  m.entries.map Prod.snd

/-- Modelled from the spec: `reserve` proactively grows capacity; the
stored association is unchanged (capacity is not logically observable). -/
def HashMap.reserve (m : HashMap K V) (additional : Nat) (g : Guard) : HashMap K V :=
  m

/-- Modelled from the spec: lookup resolves the key along its probe chain to
the matching occupied slot, a miss yielding an empty optional
(`HashMap::get`). -/
def HashMap.get (m : HashMap K V) (k : K) (g : Guard) : Option V :=
  (m.entries.find? fun p => decide (p.1 = k)).map Prod.snd

/-- Modelled from the spec: key-membership test (`HashMap::contains_key`). -/
def HashMap.contains_key (m : HashMap K V) (k : K) (g : Guard) : Bool :=
  (m.entries.find? fun p => decide (p.1 = k)).isSome

/-- Modelled from the spec: lookup-with-key returns the stored (key, value)
pair (`HashMap::get_key_value`). -/
def HashMap.get_key_value (m : HashMap K V) (k : K) (g : Guard) : Option (K × V) :=
  m.entries.find? fun p => decide (p.1 = k)

/-- Modelled from the spec: `clear` logically empties the map by swapping in
a fresh empty table generation. -/
def HashMap.clear (m : HashMap K V) (g : Guard) : HashMap K V :=
  ⟨[]⟩

/-- Modelled from the spec: `insert` replaces any existing entry for the key
and returns the previous value if one existed. -/
def HashMap.insert (m : HashMap K V) (k : K) (v : V) (g : Guard) :
    Option V × HashMap K V :=
  (m.get k g, ⟨(k, v) :: m.entries.filter fun p => !decide (p.1 = k)⟩)

/-- Modelled from the spec: `try_insert` resolves the slot; if already
occupied it fails fast returning the existing value, otherwise it behaves as
insert and returns the newly stored value. -/
def HashMap.try_insert (m : HashMap K V) (k : K) (v : V) (g : Guard) :
    TryInsertResult V × HashMap K V :=
  match m.get k g with
  | some cur => (.occupied cur, m)
  | none => (.inserted v, (m.insert k v g).2)

/-- Modelled from the spec: `remove` replaces the entry with a tombstone and
returns the removed value, if any. -/
def HashMap.remove (m : HashMap K V) (k : K) (g : Guard) :
    Option V × HashMap K V :=
  (m.get k g, ⟨m.entries.filter fun p => !decide (p.1 = k)⟩)

/-- Modelled from the spec: `remove_entry` is the key-returning removal
variant. -/
def HashMap.remove_entry (m : HashMap K V) (k : K) (g : Guard) :
    Option (K × V) × HashMap K V :=
  (m.get_key_value k g, (m.remove k g).2)

/-- Modelled from the spec: `retain` keeps exactly the entries satisfying
the predicate (tombstoning the rest lazily). -/
def HashMap.retain (m : HashMap K V) (f : K → V → Bool) (g : Guard) : HashMap K V :=
  ⟨m.entries.filter fun p => f p.1 p.2⟩

/-- Modelled from the spec: `retain_force` applies the same logical
filtering as `retain`, additionally compacting the table (compaction is not
logically observable). -/
def HashMap.retain_force (m : HashMap K V) (f : K → V → Bool) (g : Guard) : HashMap K V :=
  ⟨m.entries.filter fun p => f p.1 p.2⟩

/-- Modelled from the spec: one round of the conditional-update retry loop —
invoke the remapping function on the freshest entry; the schedule lists the
values re-read after each CAS that loses a race, an exhausted schedule
meaning the CAS succeeds.  Returns the final remapping result and the number
of invocations of the remapping function. -/
def computeLoop (f : K → V → Option V) (k : K) : V → List V → Option V × Nat
  | cur, [] => (f k cur, 1)
  | cur, w :: rest =>
      let _ := f k cur
      let r := computeLoop f k w rest
      (r.1, r.2 + 1)

/-- Modelled from the spec: `compute_if_present` under a given contention
schedule — absent key reports absent with no invocation; otherwise the retry
loop runs, a final `some` replacing the entry and a final `none` removing
it.  Returns the result, the new map state and the invocation count. -/
def HashMap.computeIfPresentWith (m : HashMap K V) (k : K) (f : K → V → Option V)
    (sched : List V) (g : Guard) : Option V × HashMap K V × Nat :=
  match m.get k g with
  | none => (none, m, 0)
  | some cur =>
      let r := computeLoop f k cur sched
      (r.1,
       match r.1 with
       | some v => (m.insert k v g).2
       | none => (m.remove k g).2,
       r.2)

/-- Modelled from the spec: `compute_if_present` as observed by a sequential
caller (no contention, empty schedule). -/
def HashMap.compute_if_present (m : HashMap K V) (k : K) (f : K → V → Option V)
    (g : Guard) : Option V × HashMap K V :=
  ((m.computeIfPresentWith k f [] g).1, (m.computeIfPresentWith k f [] g).2.1)

/-- Modelled from the spec: guarded equality compares the two maps for
identical key-value sets under a guard for each map, short-circuiting on a
length mismatch (`HashMap::guarded_eq`). -/
def HashMap.guarded_eq (m o : HashMap K V) (g1 g2 : Guard) : Bool :=
  decide (m.len = o.len) && m.entries.all fun p => decide (o.get p.1 g2 = some p.2)

/-- Modelled from the spec: `HashMap::guard` pins the current epoch and
returns a fresh owned guard. -/
def HashMap.guardNew (m : HashMap K V) (e : Epoch) : Guard × Epoch :=
  e.pinGuard

/-- The guarded view: a map reference paired with a `GuardRef`
(`HashMapRef`, src/map_ref.rs lines 13-16). -/
structure HashMapRef (K V : Type) where
  map : HashMap K V
  guard : GuardRef
deriving DecidableEq, Repr

/-- `HashMap::pin` (src/map_ref.rs lines 23-28): a view holding an owned
guard freshly pinned from the epoch. -/
def HashMap.pin (m : HashMap K V) (e : Epoch) : HashMapRef K V × Epoch :=
  let p := m.guardNew e
  (⟨m, GuardRef.owned p.1⟩, p.2)

/-- `HashMap::with_guard` (src/map_ref.rs lines 31-36): a view borrowing the
caller's guard. -/
def HashMap.with_guard (m : HashMap K V) (g : Guard) : HashMapRef K V :=
  ⟨m, GuardRef.ref g⟩

/-- Dropping a view drops its `GuardRef` (releasing an owned guard, leaving
a borrowed one untouched). -/
def HashMapRef.dropRef (r : HashMapRef K V) (e : Epoch) : Epoch :=
  r.guard.dropRef e

/-- `HashMapRef::len` (src/map_ref.rs lines 43-45). -/
def HashMapRef.len (r : HashMapRef K V) : Nat :=
  r.map.len

/-- `HashMapRef::is_empty` (src/map_ref.rs lines 50-52). -/
def HashMapRef.is_empty (r : HashMapRef K V) : Bool :=
  r.map.is_empty

/-- `HashMapRef::iter` (src/map_ref.rs lines 59-61). -/
def HashMapRef.iter (r : HashMapRef K V) : List (K × V) :=
  r.map.iter r.guard.deref

/-- `HashMapRef::keys` (src/map_ref.rs lines 68-70). -/
def HashMapRef.keys (r : HashMapRef K V) : List K :=
  r.map.keys r.guard.deref

/-- `HashMapRef::values` (src/map_ref.rs lines 77-79). -/
def HashMapRef.values (r : HashMapRef K V) : List V :=
  r.map.values r.guard.deref

/-- `HashMapRef::reserve` (src/map_ref.rs lines 92-94). -/
def HashMapRef.reserve (r : HashMapRef K V) (additional : Nat) : HashMap K V :=
  r.map.reserve additional r.guard.deref

/-- `HashMapRef::contains_key` (src/map_ref.rs lines 105-111). -/
def HashMapRef.contains_key (r : HashMapRef K V) (k : K) : Bool :=
  r.map.contains_key k r.guard.deref

/-- `HashMapRef::get` (src/map_ref.rs lines 117-123). -/
def HashMapRef.get (r : HashMapRef K V) (k : K) : Option V :=
  r.map.get k r.guard.deref

/-- `HashMapRef::get_key_value` (src/map_ref.rs lines 129-135). -/
def HashMapRef.get_key_value (r : HashMapRef K V) (k : K) : Option (K × V) :=
  r.map.get_key_value k r.guard.deref

/-- `HashMapRef::clear` (src/map_ref.rs lines 145-147). -/
def HashMapRef.clear (r : HashMapRef K V) : HashMap K V :=
  r.map.clear r.guard.deref

/-- `HashMapRef::insert` (src/map_ref.rs lines 159-161). -/
def HashMapRef.insert (r : HashMapRef K V) (k : K) (v : V) : Option V × HashMap K V :=
  r.map.insert k v r.guard.deref

/-- `HashMapRef::try_insert` (src/map_ref.rs lines 167-169). -/
def HashMapRef.try_insert (r : HashMapRef K V) (k : K) (v : V) :
    TryInsertResult V × HashMap K V :=
  r.map.try_insert k v r.guard.deref

/-- `HashMapRef::compute_if_present` (src/map_ref.rs lines 175-183). -/
def HashMapRef.compute_if_present (r : HashMapRef K V) (k : K)
    (f : K → V → Option V) : Option V × HashMap K V :=
  r.map.compute_if_present k f r.guard.deref

/-- `HashMapRef::remove` (src/map_ref.rs lines 188-194). -/
def HashMapRef.remove (r : HashMapRef K V) (k : K) : Option V × HashMap K V :=
  r.map.remove k r.guard.deref

/-- `HashMapRef::remove_entry` (src/map_ref.rs lines 200-206). -/
def HashMapRef.remove_entry (r : HashMapRef K V) (k : K) :
    Option (K × V) × HashMap K V :=
  r.map.remove_entry k r.guard.deref

/-- `HashMapRef::retain` (src/map_ref.rs lines 211-216). -/
def HashMapRef.retain (r : HashMapRef K V) (f : K → V → Bool) : HashMap K V :=
  r.map.retain f r.guard.deref

/-- `HashMapRef::retain_force` (src/map_ref.rs lines 221-226). -/
def HashMapRef.retain_force (r : HashMapRef K V) (f : K → V → Bool) : HashMap K V :=
  r.map.retain_force f r.guard.deref

/-- `IntoIterator for &HashMapRef` (src/map_ref.rs lines 229-236):
`into_iter` delegates to the map's iterator under the view's guard. -/
def HashMapRef.intoIter (r : HashMapRef K V) : List (K × V) :=
  r.map.iter r.guard.deref

/-- `Clone for HashMapRef` (src/map_ref.rs lines 248-252): cloning a view
re-pins the map (`self.map.pin()`). -/
def HashMapRef.clone (r : HashMapRef K V) (e : Epoch) : HashMapRef K V × Epoch :=
  r.map.pin e

/-- `PartialEq for HashMapRef` (src/map_ref.rs lines 254-263): guarded
comparison of the two views' maps under their respective guards. -/
def HashMapRef.eqRef (r o : HashMapRef K V) : Bool :=
  r.map.guarded_eq o.map r.guard.deref o.guard.deref

/-- `PartialEq (HashMap) for HashMapRef` (src/map_ref.rs lines 265-274):
the unguarded map side is compared under a freshly pinned guard
(`other.guard()`). -/
def HashMapRef.eqHashMap (r : HashMapRef K V) (o : HashMap K V) (e : Epoch) : Bool :=
  r.map.guarded_eq o r.guard.deref (o.guardNew e).1

/-- `PartialEq (HashMapRef) for HashMap` (src/map_ref.rs lines 276-285). -/
def HashMap.eqHashMapRef (m : HashMap K V) (o : HashMapRef K V) (e : Epoch) : Bool :=
  m.guarded_eq o.map (m.guardNew e).1 o.guard.deref

/-- `Option::expect`: the value, or a fatal process-terminating condition
(modelled as the error case) carrying the panic message. -/
def expectVal (o : Option V) (msg : String) : Except String V :=
  match o with
  | some v => .ok v
  | none => .error msg

/-- `Index for HashMapRef` (src/map_ref.rs lines 295-306):
`self.get(key).expect("no entry found for key")`. -/
def HashMapRef.index (r : HashMapRef K V) (k : K) : Except String V :=
  expectVal (r.get k) "no entry found for key"

/-- The view after the shared map it references has been mutated: same
guard, updated map state (in Rust the view's `&HashMap` sees the mutation
in place; with explicit state passing we rebuild the pairing). -/
def HashMapRef.withMap (r : HashMapRef K V) (m : HashMap K V) : HashMapRef K V :=
  ⟨m, r.guard⟩

/-- The bucket-table representation invariant: each key occupies at most one
slot, so the entry list has pairwise distinct keys. -/
@[reducible] def HashMap.NodupKeys (m : HashMap K V) : Prop :=
  (m.entries.map Prod.fst).Nodup

/-- Searching for a match inside a list filtered to the non-matches finds
nothing. -/
theorem find?_filter_not {α : Type} (l : List α) (p : α → Bool) :
    (l.filter fun a => !p a).find? p = none := by
  induction l with
  | nil => rfl
  | cons a t ih =>
      by_cases h : p a = true
      · simpa [List.filter_cons, h] using ih
      · simp only [Bool.not_eq_true] at h
        simp [List.filter_cons, h, List.find?_cons, ih]

/-- Claim C1: every operation exposed on a guarded view (len, is_empty,
iter, keys, values, reserve, contains_key, get, get_key_value, clear,
insert, try_insert, compute_if_present, remove, remove_entry, retain,
retain_force) returns exactly the result of invoking the same operation on
the underlying map with the same arguments plus the view's own guard. -/
theorem facade_forwards_every_operation (r : HashMapRef K V) (k : K) (v : V)
    (n : Nat) (f : K → V → Option V) (p : K → V → Bool) :
    r.len = r.map.len ∧
    r.is_empty = r.map.is_empty ∧
    r.iter = r.map.iter r.guard.deref ∧
    r.keys = r.map.keys r.guard.deref ∧
    r.values = r.map.values r.guard.deref ∧
    r.reserve n = r.map.reserve n r.guard.deref ∧
    r.contains_key k = r.map.contains_key k r.guard.deref ∧
    r.get k = r.map.get k r.guard.deref ∧
    r.get_key_value k = r.map.get_key_value k r.guard.deref ∧
    r.clear = r.map.clear r.guard.deref ∧
    r.insert k v = r.map.insert k v r.guard.deref ∧
    r.try_insert k v = r.map.try_insert k v r.guard.deref ∧
    r.compute_if_present k f = r.map.compute_if_present k f r.guard.deref ∧
    r.remove k = r.map.remove k r.guard.deref ∧
    r.remove_entry k = r.map.remove_entry k r.guard.deref ∧
    r.retain p = r.map.retain p r.guard.deref ∧
    r.retain_force p = r.map.retain_force p r.guard.deref :=
  ⟨rfl, rfl, rfl, rfl, rfl, rfl, rfl, rfl, rfl, rfl, rfl, rfl, rfl, rfl, rfl,
   rfl, rfl⟩

/-- Claim C10: iterating a view through the `IntoIterator` interface yields
exactly the same sequence of key-value pairs as the view's `iter`
operation — both delegate to the map's iterator under the view's guard. -/
theorem into_iter_yields_iter (r : HashMapRef K V) :
    r.intoIter = r.iter ∧ r.intoIter = r.map.iter r.guard.deref :=
  ⟨rfl, rfl⟩

/-- Claim C3: the indexing operator performs the same lookup as `get` and is
fatal (an `Except.error` carrying the panic message) exactly when the key is
absent; `get` and `remove` themselves surface a missing key as an empty
optional result. -/
theorem index_fatal_exactly_when_absent (r : HashMapRef K V) (k : K) :
    (r.index k = Except.error "no entry found for key" ↔ r.get k = none) ∧
    (∀ v, r.index k = Except.ok v ↔ r.get k = some v) ∧
    (r.get k = none ↔ r.contains_key k = false) ∧
    ((r.remove k).1 = none ↔ r.contains_key k = false) := by
  refine ⟨?_, ?_, ?_, ?_⟩
  · cases h : r.get k <;>
      simp [HashMapRef.index, expectVal, h]
  · intro v
    cases h : r.get k <;>
      simp [HashMapRef.index, expectVal, h]
  · cases h : (r.map.entries.find? fun p => decide (p.1 = k)) <;>
      simp [HashMapRef.get, HashMap.get, HashMapRef.contains_key,
        HashMap.contains_key, h]
  · cases h : (r.map.entries.find? fun p => decide (p.1 = k)) <;>
      simp [HashMapRef.remove, HashMap.remove, HashMap.get,
        HashMapRef.contains_key, HashMap.contains_key, h]

/-- Claim C9: `pin` acquires and owns a fresh guard, registered active and
removed again when the view is dropped; `with_guard` merely wraps the
caller's guard — constructing and dropping such a view performs no pin and
leaves the epoch state unchanged. -/
theorem pin_owns_fresh_but_with_guard_borrows (m : HashMap K V) (g : Guard)
    (e : Epoch) (h : ∀ i ∈ e.active, i < e.nextId) :
    (m.pin e).1.map = m ∧
    (m.pin e).1.guard = GuardRef.owned ⟨e.nextId⟩ ∧
    e.nextId ∉ e.active ∧
    ((m.pin e).2).active = e.nextId :: e.active ∧
    ((m.pin e).1.dropRef (m.pin e).2).active = e.active ∧
    (m.with_guard g).map = m ∧
    (m.with_guard g).guard = GuardRef.ref g ∧
    (m.with_guard g).dropRef e = e := by
  refine ⟨rfl, rfl, fun hmem => absurd (h _ hmem) (lt_irrefl _), rfl, ?_, rfl,
    rfl, rfl⟩
  simp [HashMap.pin, HashMap.guardNew, Epoch.pinGuard, HashMapRef.dropRef,
    GuardRef.dropRef, Epoch.release]

/-- Witness for C9 at a concrete map, guard and epoch. -/
theorem pin_owns_fresh_but_with_guard_borrows_witness :
    ((⟨[]⟩ : HashMap Nat Nat).pin ⟨2, [0, 1]⟩).1.guard = GuardRef.owned ⟨2⟩ ∧
    (((⟨[]⟩ : HashMap Nat Nat).pin ⟨2, [0, 1]⟩).1.dropRef
      ((⟨[]⟩ : HashMap Nat Nat).pin ⟨2, [0, 1]⟩).2).active = [0, 1] ∧
    ((⟨[]⟩ : HashMap Nat Nat).with_guard ⟨0⟩).dropRef ⟨2, [0, 1]⟩ =
      (⟨2, [0, 1]⟩ : Epoch) := by
  have h := pin_owns_fresh_but_with_guard_borrows (⟨[]⟩ : HashMap Nat Nat)
    ⟨0⟩ ⟨2, [0, 1]⟩ (by decide)
  exact ⟨h.2.1, h.2.2.2.2.1, h.2.2.2.2.2.2.2⟩

/-- Claim C2: cloning a guarded view produces a view over the same map whose
guard is a newly pinned, owned guard, distinct from the original view's
guard — including when the original view borrows its guard. -/
theorem clone_repins_fresh_owned_guard (r : HashMapRef K V) (e : Epoch)
    (h1 : ∀ i ∈ e.active, i < e.nextId) (h2 : r.guard.deref.id ∈ e.active) :
    (r.clone e).1.map = r.map ∧
    (r.clone e).1.guard = GuardRef.owned ⟨e.nextId⟩ ∧
    (r.clone e).1.guard.deref ≠ r.guard.deref ∧
    ((r.clone e).2).active = e.nextId :: e.active := by
  refine ⟨rfl, rfl, ?_, rfl⟩
  intro hEq
  have hid : e.nextId = r.guard.deref.id := congrArg Guard.id hEq
  exact absurd (h1 _ (hid ▸ h2)) (lt_irrefl _)

/-- Witness for C2: cloning a view built over a borrowed guard. -/
theorem clone_repins_fresh_owned_guard_witness :
    ((⟨⟨[]⟩, GuardRef.ref ⟨0⟩⟩ : HashMapRef Nat Nat).clone ⟨2, [0, 1]⟩).1.guard
      = GuardRef.owned ⟨2⟩ ∧
    ((⟨⟨[]⟩, GuardRef.ref ⟨0⟩⟩ : HashMapRef Nat Nat).clone
      ⟨2, [0, 1]⟩).1.guard.deref ≠ GuardRef.deref (GuardRef.ref ⟨0⟩) := by
  have h := clone_repins_fresh_owned_guard
    (⟨⟨[]⟩, GuardRef.ref ⟨0⟩⟩ : HashMapRef Nat Nat) ⟨2, [0, 1]⟩
    (by decide) (by decide)
  exact ⟨h.2.1, h.2.2.1⟩

/-- The conditional-update retry loop invokes the remapping function once
per round: one invocation per lost CAS plus the final round. -/
theorem computeLoop_invocations (f : K → V → Option V) (k : K) (cur : V)
    (sched : List V) :
    (computeLoop f k cur sched).2 = sched.length + 1 := by
  induction sched generalizing cur with
  | nil => rfl
  | cons w rest ih => simp [computeLoop, ih]

/-- Claim C4: when the key is present, the remapping function passed to
compute-if-present is invoked once per retry round, so under any contention
schedule in which the slot CAS loses at least one race it is invoked more
than once; a caller that loses no race sees exactly one invocation. -/
theorem compute_if_present_reinvokes_under_contention (m : HashMap K V)
    (k : K) (f : K → V → Option V) (sched : List V) (g : Guard) (cur : V)
    (hp : m.get k g = some cur) (hc : sched ≠ []) :
    2 ≤ (m.computeIfPresentWith k f sched g).2.2 ∧
    (m.computeIfPresentWith k f [] g).2.2 = 1 := by
  constructor
  · have hlen : 0 < sched.length := List.length_pos.mpr hc
    simp only [HashMap.computeIfPresentWith, hp, computeLoop_invocations]
    omega
  · simp [HashMap.computeIfPresentWith, hp, computeLoop_invocations]

/-- Witness for C4: one lost CAS forces a second invocation. -/
theorem compute_if_present_reinvokes_witness :
    2 ≤ ((⟨[(1, 5)]⟩ : HashMap Nat Nat).computeIfPresentWith 1
      (fun _ v => some (v + 1)) [7] ⟨0⟩).2.2 ∧
    ((⟨[(1, 5)]⟩ : HashMap Nat Nat).computeIfPresentWith 1
      (fun _ v => some (v + 1)) [] ⟨0⟩).2.2 = 1 :=
  compute_if_present_reinvokes_under_contention (⟨[(1, 5)]⟩ : HashMap Nat Nat)
    1 (fun _ v => some (v + 1)) [7] ⟨0⟩ 5 (by decide) (by decide)

/-- Claim C5: on a view, try-insert of an already-present key fails,
returning the existing value as the failure payload and leaving the map
unchanged; try-insert of an absent key succeeds, returning the newly stored
value, which is then the value stored at the key. -/
theorem try_insert_occupied_fails_absent_inserts (r : HashMapRef K V) (k : K)
    (v : V) :
    (∀ w, r.get k = some w →
      r.try_insert k v = (TryInsertResult.occupied w, r.map)) ∧
    (r.get k = none →
      (r.try_insert k v).1 = TryInsertResult.inserted v ∧
      ((r.try_insert k v).2).get k r.guard.deref = some v) := by
  constructor
  · intro w hw
    simp [HashMapRef.try_insert, HashMap.try_insert, HashMapRef.get] at hw ⊢
    rw [hw]
  · intro hn
    simp only [HashMapRef.get, HashMap.get] at hn
    simp [HashMapRef.try_insert, HashMap.try_insert, hn, HashMap.insert,
      HashMap.get, List.find?_cons]

/-- Witness for C5: one occupied and one absent concrete try-insert. -/
theorem try_insert_occupied_fails_absent_inserts_witness :
    ((⟨⟨[(1, 10)]⟩, GuardRef.ref ⟨0⟩⟩ : HashMapRef Nat Nat).try_insert 1 99
      = (TryInsertResult.occupied 10, ⟨[(1, 10)]⟩)) ∧
    (((⟨⟨[]⟩, GuardRef.ref ⟨0⟩⟩ : HashMapRef Nat Nat).try_insert 2 5).1
      = TryInsertResult.inserted 5) :=
  ⟨(try_insert_occupied_fails_absent_inserts
      (⟨⟨[(1, 10)]⟩, GuardRef.ref ⟨0⟩⟩ : HashMapRef Nat Nat) 1 99).1 10
      (by decide),
   ((try_insert_occupied_fails_absent_inserts
      (⟨⟨[]⟩, GuardRef.ref ⟨0⟩⟩ : HashMapRef Nat Nat) 2 5).2 (by decide)).1⟩

/-- Claim C6: starting from a view over a map not containing key "x", the
chain insert("x",1); try-insert("x",2); get("x"); remove("x"); get("x")
yields: no previous value, a failed try-insert carrying value 1 with the map
unchanged, lookup 1, removed value 1, and finally absence. -/
theorem scenario_insert_try_insert_get_remove_get (r : HashMapRef String Nat)
    (h : r.get "x" = none) :
    (r.insert "x" 1).1 = none ∧
    ((r.withMap (r.insert "x" 1).2).try_insert "x" 2).1 =
      TryInsertResult.occupied 1 ∧
    ((r.withMap (r.insert "x" 1).2).try_insert "x" 2).2 = (r.insert "x" 1).2 ∧
    (r.withMap (r.insert "x" 1).2).get "x" = some 1 ∧
    ((r.withMap (r.insert "x" 1).2).remove "x").1 = some 1 ∧
    (r.withMap ((r.withMap (r.insert "x" 1).2).remove "x").2).get "x" =
      none := by
  simp only [HashMapRef.get, HashMapRef.insert, HashMapRef.try_insert,
    HashMapRef.remove, HashMapRef.withMap] at h ⊢
  have hget1 : ((r.map.insert "x" 1 r.guard.deref).2).get "x" r.guard.deref
      = some 1 := by
    simp [HashMap.insert, HashMap.get, List.find?_cons]
  refine ⟨?_, ?_, ?_, hget1, ?_, ?_⟩
  · simpa [HashMap.insert] using h
  · simp [HashMap.try_insert, hget1]
  · simp [HashMap.try_insert, hget1]
  · simpa [HashMap.remove] using hget1
  · simp only [HashMap.remove, HashMap.insert, HashMap.get]
    rw [find?_filter_not]
    rfl

/-- Witness for C6 on the empty map. -/
theorem scenario_insert_try_insert_get_remove_get_witness :
    ((⟨⟨[]⟩, GuardRef.ref ⟨0⟩⟩ : HashMapRef String Nat).insert "x" 1).1 =
      none ∧
    (((⟨⟨[]⟩, GuardRef.ref ⟨0⟩⟩ : HashMapRef String Nat).withMap
      (((⟨⟨[]⟩, GuardRef.ref ⟨0⟩⟩ : HashMapRef String Nat).insert "x" 1)).2
      ).try_insert "x" 2).1 = TryInsertResult.occupied 1 := by
  have h := scenario_insert_try_insert_get_remove_get
    (⟨⟨[]⟩, GuardRef.ref ⟨0⟩⟩ : HashMapRef String Nat) rfl
  exact ⟨h.1, h.2.1⟩

/-- Under distinct keys, a successful keyed search is exactly membership of
the corresponding pair. -/
theorem find?_key_some_iff_mem {l : List (K × V)}
    (hl : (l.map Prod.fst).Nodup) (k : K) (v : V) :
    (l.find? fun p => decide (p.1 = k)).map Prod.snd = some v ↔ (k, v) ∈ l := by
  induction l with
  | nil => simp
  | cons a t ih =>
      simp only [List.map_cons, List.nodup_cons] at hl
      by_cases h : a.1 = k
      · subst h
        have hx : List.find? (fun p => decide (p.1 = a.1)) (a :: t) = some a := by
          simp [List.find?_cons]
        rw [hx]
        constructor
        · intro hv
          have hva : a.2 = v := Option.some.inj hv
          rw [← hva, Prod.mk.eta]
          exact List.mem_cons_self a t
        · intro hv
          rcases List.mem_cons.mp hv with h1 | h1
          · have hva : v = a.2 := congrArg Prod.snd h1
            simp [hva]
          · exact absurd (List.mem_map_of_mem Prod.fst h1) hl.1
      · have hx : List.find? (fun p => decide (p.1 = k)) (a :: t)
            = List.find? (fun p => decide (p.1 = k)) t := by
          simp [List.find?_cons, h]
        rw [hx, ih hl.2, List.mem_cons]
        constructor
        · exact Or.inr
        · rintro (h1 | h1)
          · exact absurd (congrArg Prod.fst h1).symm h
          · exact h1

/-- Under the distinct-key invariant, `get` answers exactly membership in
the entry list. -/
theorem get_some_iff_mem (m : HashMap K V) (g : Guard) (hm : m.NodupKeys)
    (k : K) (v : V) : m.get k g = some v ↔ (k, v) ∈ m.entries :=
  find?_key_some_iff_mem hm k v

/-- Counting half of guarded equality: equal sizes plus every entry of the
first map found in the second force every entry of the second to lie in the
first. -/
theorem mem_left_of_len_eq_of_lookup (m o : HashMap K V) (g2 : Guard)
    (hm : m.NodupKeys) (ho : o.NodupKeys) (hlen : m.len = o.len)
    (hall : ∀ p ∈ m.entries, o.get p.1 g2 = some p.2)
    {k : K} {v : V} (hkv : (k, v) ∈ o.entries) : (k, v) ∈ m.entries := by
  classical
  have hsub : (m.entries.map Prod.fst).toFinset ⊆
      (o.entries.map Prod.fst).toFinset := by
    intro x hx
    rw [List.mem_toFinset, List.mem_map] at hx
    obtain ⟨p, hp, rfl⟩ := hx
    have hmem : (p.1, p.2) ∈ o.entries :=
      (get_some_iff_mem o g2 ho p.1 p.2).mp (hall p hp)
    rw [List.mem_toFinset, List.mem_map]
    exact ⟨(p.1, p.2), hmem, rfl⟩
  have hcard : (o.entries.map Prod.fst).toFinset.card ≤
      (m.entries.map Prod.fst).toFinset.card := by
    rw [List.toFinset_card_of_nodup hm, List.toFinset_card_of_nodup ho,
      List.length_map, List.length_map]
    exact le_of_eq hlen.symm
  have heq := Finset.eq_of_subset_of_card_le hsub hcard
  have hkm : k ∈ m.entries.map Prod.fst := by
    rw [← List.mem_toFinset, heq, List.mem_toFinset, List.mem_map]
    exact ⟨(k, v), hkv, rfl⟩
  rw [List.mem_map] at hkm
  obtain ⟨q, hq, hqk⟩ := hkm
  obtain ⟨qk, qv⟩ := q
  simp only at hqk
  subst hqk
  have hvq : o.get qk g2 = some qv := hall (qk, qv) hq
  have hvk : o.get qk g2 = some v := (get_some_iff_mem o g2 ho qk v).mpr hkv
  rw [hvk] at hvq
  rw [Option.some.inj hvq]
  exact hq

/-- Guarded equality holds exactly when the two maps hold identical
key-value sets (under the distinct-key bucket invariant). -/
theorem guarded_eq_true_iff (m o : HashMap K V) (g1 g2 : Guard)
    (hm : m.NodupKeys) (ho : o.NodupKeys) :
    m.guarded_eq o g1 g2 = true ↔
      ∀ k v, ((k, v) ∈ m.entries ↔ (k, v) ∈ o.entries) := by
  unfold HashMap.guarded_eq
  simp only [Bool.and_eq_true, decide_eq_true_eq, List.all_eq_true]
  constructor
  · rintro ⟨hlen, hall⟩ k v
    constructor
    · intro hkv
      exact (get_some_iff_mem o g2 ho k v).mp (hall (k, v) hkv)
    · intro hkv
      exact mem_left_of_len_eq_of_lookup m o g2 hm ho hlen hall hkv
  · intro hmem
    have hkeys : (m.entries.map Prod.fst).toFinset =
        (o.entries.map Prod.fst).toFinset := by
      ext x
      simp only [List.mem_toFinset, List.mem_map]
      constructor
      · rintro ⟨p, hp, rfl⟩
        exact ⟨p, (hmem p.1 p.2).mp (Prod.mk.eta ▸ hp), rfl⟩
      · rintro ⟨p, hp, rfl⟩
        exact ⟨p, (hmem p.1 p.2).mpr (Prod.mk.eta ▸ hp), rfl⟩
    constructor
    · have := congrArg Finset.card hkeys
      rw [List.toFinset_card_of_nodup hm, List.toFinset_card_of_nodup ho,
        List.length_map, List.length_map] at this
      exact this
    · intro p hp
      exact (get_some_iff_mem o g2 ho p.1 p.2).mpr
        ((hmem p.1 p.2).mp (Prod.mk.eta ▸ hp))

/-- Guarded equality is symmetric in the two maps, whichever guards protect
each side. -/
theorem guarded_eq_symm (m o : HashMap K V) (g1 g2 g3 g4 : Guard)
    (hm : m.NodupKeys) (ho : o.NodupKeys) :
    m.guarded_eq o g1 g2 = o.guarded_eq m g3 g4 := by
  have h1 := guarded_eq_true_iff m o g1 g2 hm ho
  have h2 := guarded_eq_true_iff o m g3 g4 ho hm
  cases hb1 : m.guarded_eq o g1 g2 <;> cases hb2 : o.guarded_eq m g3 g4 <;>
    try rfl
  · exfalso
    have hmem := h2.mp hb2
    have hcontra : m.guarded_eq o g1 g2 = true :=
      h1.mpr fun k v => (hmem k v).symm
    rw [hb1] at hcontra
    exact Bool.false_ne_true hcontra
  · exfalso
    have hmem := h1.mp hb1
    have hcontra : o.guarded_eq m g3 g4 = true :=
      h2.mpr fun k v => (hmem k v).symm
    rw [hb2] at hcontra
    exact Bool.false_ne_true hcontra

/-- Claim C7: equality between two guarded views and between a guarded view
and an unguarded map compares the maps for identical key-value sets, a guard
supplied for each side, and the view-map comparison is symmetric. -/
theorem guarded_equality_sets_and_symmetric (r o : HashMapRef K V)
    (m : HashMap K V) (e1 e2 e3 : Epoch)
    (hr : r.map.NodupKeys) (ho : o.map.NodupKeys) (hm : m.NodupKeys) :
    (r.eqRef o = true ↔
      ∀ k v, ((k, v) ∈ r.map.entries ↔ (k, v) ∈ o.map.entries)) ∧
    (r.eqHashMap m e1 = true ↔
      ∀ k v, ((k, v) ∈ r.map.entries ↔ (k, v) ∈ m.entries)) ∧
    r.eqHashMap m e2 = m.eqHashMapRef r e3 :=
  ⟨guarded_eq_true_iff r.map o.map r.guard.deref o.guard.deref hr ho,
   guarded_eq_true_iff r.map m r.guard.deref (m.guardNew e1).1 hr hm,
   guarded_eq_symm r.map m r.guard.deref (m.guardNew e2).1
     (m.guardNew e3).1 r.guard.deref hr hm⟩

/-- Witness for C7: the concrete view-versus-map comparison is symmetric. -/
theorem guarded_equality_sets_and_symmetric_witness :
    HashMapRef.eqHashMap
      (⟨⟨[(1, 10)]⟩, GuardRef.ref ⟨0⟩⟩ : HashMapRef Nat Nat)
      ⟨[(1, 10)]⟩ ⟨0, []⟩ =
    HashMap.eqHashMapRef ⟨[(1, 10)]⟩
      (⟨⟨[(1, 10)]⟩, GuardRef.ref ⟨0⟩⟩ : HashMapRef Nat Nat) ⟨0, []⟩ :=
  (guarded_equality_sets_and_symmetric
    (⟨⟨[(1, 10)]⟩, GuardRef.ref ⟨0⟩⟩ : HashMapRef Nat Nat)
    (⟨⟨[(1, 10)]⟩, GuardRef.ref ⟨0⟩⟩ : HashMapRef Nat Nat)
    ⟨[(1, 10)]⟩ ⟨0, []⟩ ⟨0, []⟩ ⟨0, []⟩
    (by decide) (by decide) (by decide)).2.2

/-- Counterexample to claim C8 as stated: for the pair of key-value pairs
(1, 10) and (1, 20) — same key, different values — inserting them in one
order and in the reverse order yields maps that are NOT guarded-equal. -/
theorem insertion_order_claim_fails_on_shared_key :
    (((⟨[]⟩ : HashMap Nat Nat).insert 1 10 ⟨0⟩).2.insert 1 20 ⟨0⟩).2.guarded_eq
      (((⟨[]⟩ : HashMap Nat Nat).insert 1 20 ⟨0⟩).2.insert 1 10 ⟨0⟩).2 ⟨0⟩ ⟨0⟩
      = false := by
  decide

/-- Claim C8 (amended to key-value pairs with distinct keys): inserting two
pairs with distinct keys in either order yields guarded-equal maps, and
removing either key from either map makes the two maps guarded-unequal. -/
theorem insertion_order_and_removal_distinct_keys (k1 k2 : K) (v1 v2 : V)
    (g : Guard) (hne : k1 ≠ k2) :
    (((⟨[]⟩ : HashMap K V).insert k1 v1 g).2.insert k2 v2 g).2.guarded_eq
      (((⟨[]⟩ : HashMap K V).insert k2 v2 g).2.insert k1 v1 g).2 g g = true ∧
    ((((⟨[]⟩ : HashMap K V).insert k1 v1 g).2.insert k2 v2 g).2.remove k1
      g).2.guarded_eq
      (((⟨[]⟩ : HashMap K V).insert k2 v2 g).2.insert k1 v1 g).2 g g = false ∧
    ((((⟨[]⟩ : HashMap K V).insert k1 v1 g).2.insert k2 v2 g).2.remove k2
      g).2.guarded_eq
      (((⟨[]⟩ : HashMap K V).insert k2 v2 g).2.insert k1 v1 g).2 g g = false ∧
    (((⟨[]⟩ : HashMap K V).insert k1 v1 g).2.insert k2 v2 g).2.guarded_eq
      ((((⟨[]⟩ : HashMap K V).insert k2 v2 g).2.insert k1 v1 g).2.remove k1
        g).2 g g = false ∧
    (((⟨[]⟩ : HashMap K V).insert k1 v1 g).2.insert k2 v2 g).2.guarded_eq
      ((((⟨[]⟩ : HashMap K V).insert k2 v2 g).2.insert k1 v1 g).2.remove k2
        g).2 g g = false := by
  have hA : (((⟨[]⟩ : HashMap K V).insert k1 v1 g).2.insert k2 v2 g).2
      = ⟨[(k2, v2), (k1, v1)]⟩ := by
    simp [HashMap.insert, HashMap.get, hne]
  have hB : (((⟨[]⟩ : HashMap K V).insert k2 v2 g).2.insert k1 v1 g).2
      = ⟨[(k1, v1), (k2, v2)]⟩ := by
    simp [HashMap.insert, HashMap.get, Ne.symm hne]
  rw [hA, hB]
  refine ⟨?_, ?_, ?_, ?_, ?_⟩ <;>
    simp [HashMap.guarded_eq, HashMap.remove, HashMap.get, HashMap.len,
      hne, Ne.symm hne]

/-- Witness for C8 (amended) at the spec's own example keys. -/
theorem insertion_order_and_removal_distinct_keys_witness :
    (((⟨[]⟩ : HashMap Nat Nat).insert 1 10 ⟨0⟩).2.insert 2 20 ⟨0⟩).2.guarded_eq
      (((⟨[]⟩ : HashMap Nat Nat).insert 2 20 ⟨0⟩).2.insert 1 10 ⟨0⟩).2 ⟨0⟩ ⟨0⟩
      = true ∧
    ((((⟨[]⟩ : HashMap Nat Nat).insert 1 10 ⟨0⟩).2.insert 2 20 ⟨0⟩).2.remove 1
      ⟨0⟩).2.guarded_eq
      (((⟨[]⟩ : HashMap Nat Nat).insert 2 20 ⟨0⟩).2.insert 1 10 ⟨0⟩).2 ⟨0⟩ ⟨0⟩
      = false := by
  have h := insertion_order_and_removal_distinct_keys
    (K := Nat) (V := Nat) 1 2 10 20 ⟨0⟩ (by decide)
  exact ⟨h.1, h.2.1⟩

end Flurry
